import Mathlib

/-!
Verification of the `grolt` interactive console (`src/grolt/console.py`)
against its natural-language specification.

The Python source is shallowly embedded: pure functions become Lean
functions, the side-effecting console loop becomes explicit trace / state
passing, Python exceptions become an explicit `Exc` type threaded through
`Except`, and external collaborators (the Service snapshot, containers,
the click binding layer, the Python interpreter) are modelled at their
interface boundary, as the spec prescribes.
-/

namespace Grolt

/-- MachineSpec (external data model, §3 of the spec / py2neo): immutable
descriptor of a cluster member.  `debug_port` flattens the access path
`spec.debug_opts.port` used by the source. -/
structure MachineSpec where
  name : String
  fq_name : String
  config : List (String × String)
  bolt_port : Nat
  http_port : Nat
  debug_port : Nat
  http_uri : String
deriving DecidableEq, Repr

/-- Live `Machine` handle, modelled with the one attribute the `ls` command
reads (`machine.container.short_id`); machine-level operations (`ping`,
`pause`, `logs`) are modelled as trace events instead. -/
structure Machine where
  short_id : String
deriving DecidableEq, Repr

/-- The `machines` mapping of the Service, a Python `dict` from `MachineSpec`
to a live-machine value (possibly `None`), modelled as an association list
in insertion order.  The value type is kept generic: the resolver yields
the stored values unchanged. -/
abbrev Snapshot (μ : Type) : Type := List (MachineSpec × μ)

/-- Defaulting of a user token, from `_iter_machines`: `if not name: name = "a"`.
Python truthiness makes both `None` and the empty string default to `"a"`. -/
def tokenDefault : Option String → String
  | none => "a"
  | some s => if s = "" then "a" else s

/-- Source method `Neo4jConsole._iter_machines` (console.py:64-69): yield the
mapping value of every spec whose short name or fully-qualified name equals
the defaulted token, in snapshot iteration order. -/
def _iter_machines {μ : Type} (machines : Snapshot μ) (name : Option String) : List μ :=
  let n := tokenDefault name
  (machines.filter (fun p => decide (n = p.1.name ∨ n = p.1.fq_name))).map Prod.snd

/-- Source method `Neo4jConsole._for_each_machine` (console.py:71-76): run `f`
on every resolved machine, counting them.  The side effects of the Python
callback are embedded as explicit state passing (`f : μ → σ → σ`). -/
def _for_each_machine {μ σ : Type} (machines : Snapshot μ) (name : Option String)
    (f : μ → σ → σ) (s0 : σ) : Nat × σ :=
  (_iter_machines machines name).foldl (fun acc m => (acc.1 + 1, f m acc.2)) (0, s0)

/-- Model of the Python `shlex.split` collaborator restricted to inputs that
contain no quote or escape characters (the only inputs the claims
exercise): POSIX word splitting on whitespace, dropping empty fields. -/
def splitWsAux : List Char → List Char → List String
  | [], cur => if cur = [] then [] else [String.mk cur.reverse]
  | c :: rest, cur =>
    if c.isWhitespace then
      if cur = [] then splitWsAux rest []
      else String.mk cur.reverse :: splitWsAux rest []
    else splitWsAux rest (c :: cur)

/-- The `shlex_split` tokenizer as imported in console.py:20. -/
def shlex_split (s : String) : List String :=
  splitWsAux s.data []

/-- Quote character of the Python `repr` rendering (written by code point to
avoid a literal quote token). -/
def quoteCh : Char := Char.ofNat 39

/-- Python `repr` of a string that contains no quote characters, as produced
by the repr-style format specifiers used in the error messages of
console.py. -/
def pyRepr (s : String) : String :=
  String.mk (quoteCh :: (s.data ++ [quoteCh]))

/-- Python `repr` of an optional-string click argument: `repr(None)` is
`"None"`. -/
def pyReprOpt : Option String → String
  | none => "None"
  | some s => pyRepr s

/-- The exceptions the control flow of the console distinguishes.  The click
hierarchy is `BadParameter <: UsageError <: ClickException`, and
`click.exceptions.Exit` is NOT a `ClickException`; `SystemExit` and
`IndexError` are Python builtins, and `other` stands for any further
unmodelled exception a collaborator may raise. -/
inductive Exc where
  | clickExit
  | usageError (msg : String)
  | badParameter (msg : String)
  | systemExit
  | indexError
  | other (name : String)
deriving DecidableEq, Repr

/-- Test `isinstance(e, ClickException)`: exactly the two click user-error
constructors. -/
def Exc.isClickException : Exc → Bool
  | .usageError _ => true
  | .badParameter _ => true
  | _ => false

/-- Method `ClickException.format_message` as observed through the click
interface: `UsageError` returns its message unchanged, while a
`BadParameter` raised without a bound parameter context renders as
`Invalid value: <message>`. -/
def Exc.formatMessage : Exc → String
  | .usageError m => m
  | .badParameter m => "Invalid value: " ++ m
  | _ => ""

/-- The console commands: the `click.Command` attributes of `Neo4jConsole`
(browser, env, exit, help, logs, ls, pause, ping, rt) and of its subclass
`Neo4jClusterConsole` (add, rm, reboot). -/
inductive Cmd where
  | browser | env | exit | help | logs | ls | pause | ping | rt
  | add | rm | reboot
deriving DecidableEq, Repr

/-- Attribute name of each command (the name of a command is its attribute
name on the console, §3 of the spec). -/
def cmdName : Cmd → String
  | .browser => "browser"
  | .env => "env"
  | .exit => "exit"
  | .help => "help"
  | .logs => "logs"
  | .ls => "ls"
  | .pause => "pause"
  | .ping => "ping"
  | .rt => "rt"
  | .add => "add"
  | .rm => "rm"
  | .reboot => "reboot"

/-- Source method `Neo4jConsole.__iter__` via `inspect.getmembers` (which
sorts attribute names): the command surface of the base console and, when
`cluster` is true, of `Neo4jClusterConsole`, in sorted attribute order. -/
def commandsOf : Bool → List Cmd
  | false => [.browser, .env, .exit, .help, .logs, .ls, .pause, .ping, .rt]
  | true => [.add, .browser, .env, .exit, .help, .logs, .ls, .pause, .ping,
             .reboot, .rm, .rt]

/-- Source method `Neo4jConsole.__getitem__` (console.py:53-62): look the name
up among the `click.Command` attributes of the instance; any name that is
not a command raises `BadParameter("No such command ...")`. -/
def getitem (cluster : Bool) (name : String) : Except Exc Cmd :=
  match (commandsOf cluster).find? (fun c => cmdName c == name) with
  | some c => Except.ok c
  | none => Except.error (Exc.badParameter ("No such command \"" ++ name ++ "\"."))

/-- Bound command-line parameters, one shape per command signature. -/
inductive Params where
  | unit0
  | opt (x : Option String)
  | lsP (refresh : Bool)
  | pauseP (time : Rat) (machine : Option String)
  | req (x : String)
deriving DecidableEq, Repr

/-- The click message for a surplus positional token. -/
def extraArgMsg (t : String) : String :=
  "Got unexpected extra argument (" ++ t ++ ")"

/-- Click binding for a single optional positional argument
(browser/ping/logs/rt/help). -/
def bindOptArg : List String → Except Exc Params
  | [] => Except.ok (Params.opt none)
  | [x] => Except.ok (Params.opt (some x))
  | _ :: y :: _ => Except.error (Exc.usageError (extraArgMsg y))

/-- Click binding for a command with no declared arguments (env/exit). -/
def bindNoArg : List String → Except Exc Params
  | [] => Except.ok Params.unit0
  | x :: _ => Except.error (Exc.usageError (extraArgMsg x))

/-- Click binding for a single required positional argument (add/rm/reboot). -/
def bindReqArg (p : String) : List String → Except Exc Params
  | [] => Except.error (Exc.usageError ("Missing argument " ++ pyRepr p ++ "."))
  | [x] => Except.ok (Params.req x)
  | _ :: y :: _ => Except.error (Exc.usageError (extraArgMsg y))

/-- Click binding for the `-r` (long form `--refresh`) flag of `ls`. -/
def bindLs : List String → Bool → Except Exc Params
  | [], r => Except.ok (Params.lsP r)
  | t :: rest, r =>
    if t = "-r" ∨ t = "--refresh" then bindLs rest true
    else if t.startsWith "-" then
      Except.error (Exc.usageError ("No such option: " ++ t))
    else Except.error (Exc.usageError (extraArgMsg t))

/-- Click binding for `pause`: a required float-typed `TIME` followed by an
optional `MACHINE`.  `pf` models the Python `float()` parsing (an external
collaborator); a token it rejects is a `BadParameter`. -/
def bindPause (pf : String → Option Rat) : List String → Except Exc Params
  | [] => Except.error (Exc.usageError ("Missing argument " ++ pyRepr "TIME" ++ "."))
  | t :: rest =>
    match pf t with
    | none => Except.error (Exc.badParameter (t ++ " is not a valid floating point value"))
    | some v =>
      match rest with
      | [] => Except.ok (Params.pauseP v none)
      | [m] => Except.ok (Params.pauseP v (some m))
      | _ :: y :: _ => Except.error (Exc.usageError (extraArgMsg y))

/-- Source call `f.make_context(arg0, args, obj=self)` (console.py:101): the
click binding of raw argument strings to the declared signature of each
command, modelled at the interface boundary. -/
def make_context (pf : String → Option Rat) : Cmd → List String → Except Exc Params
  | .browser, a => bindOptArg a
  | .ping, a => bindOptArg a
  | .logs, a => bindOptArg a
  | .rt, a => bindOptArg a
  | .help, a => bindOptArg a
  | .env, a => bindNoArg a
  | .exit, a => bindNoArg a
  | .ls, a => bindLs a false
  | .pause, a => bindPause pf a
  | .add, a => bindReqArg "MODE" a
  | .rm, a => bindReqArg "MACHINE" a
  | .reboot, a => bindReqArg "MACHINE" a

/-- Outcome of one `invoke` call: the lines echoed to the error stream by its
`ClickException` handler, and the exception (if any) that escaped `invoke`. -/
structure InvokeResult where
  errLines : List String
  raised : Option Exc
deriving DecidableEq, Repr

/-- The body of the `try` block of `invoke` (console.py:98-102): `args[0]` on an
empty tuple raises `IndexError`; otherwise look the command up, bind the
remaining tokens, and run the command body.  `bodies` gives the behavior of
each bound command body (the callbacks interact with external
collaborators, so their outcome is a parameter of the model). -/
def invokeTry (cluster : Bool) (pf : String → Option Rat)
    (bodies : Cmd → Params → Except Exc Unit) : List String → Except Exc Unit
  | [] => Except.error Exc.indexError
  | arg0 :: rest =>
    match getitem cluster arg0 with
    | Except.error e => Except.error e
    | Except.ok f =>
      match make_context pf f rest with
      | Except.error e => Except.error e
      | Except.ok ctx => bodies f ctx

/-- Source method `Neo4jConsole.invoke` (console.py:97-106): run the try block; swallow
`click.exceptions.Exit` silently, render any `ClickException` as one
`error.format_message()` line on the error stream, and let every other
exception propagate. -/
def invoke (cluster : Bool) (pf : String → Option Rat)
    (bodies : Cmd → Params → Except Exc Unit) (args : List String) : InvokeResult :=
  match invokeTry cluster pf bodies args with
  | Except.ok _ => ⟨[], none⟩
  | Except.error Exc.clickExit => ⟨[], none⟩
  | Except.error e =>
    if e.isClickException then ⟨[e.formatMessage], none⟩ else ⟨[], some e⟩

/-- One iteration of `Neo4jConsole.run` (console.py:90-95) after a line is
read: the Python test `if text:` dispatches exactly the truthy (non-empty,
untrimmed) lines, tokenizing with `shlex_split` and calling `invoke`;
a falsy (empty) line re-prompts without dispatching (`none`). -/
def runStep (cluster : Bool) (pf : String → Option Rat)
    (bodies : Cmd → Params → Except Exc Unit) (line : String) : Option InvokeResult :=
  if line = "" then none
  else some (invoke cluster pf bodies (shlex_split line))

/-- The `while True` loop of `Neo4jConsole.run` over a script of input lines: keep
prompting and dispatching until an exception escapes `invoke` (returned as
`some e`); `none` means the loop is still running when the script ends. -/
def runLines (cluster : Bool) (pf : String → Option Rat)
    (bodies : Cmd → Params → Except Exc Unit) : List String → Option Exc
  | [] => none
  | line :: rest =>
    match runStep cluster pf bodies line with
    | none => runLines cluster pf bodies rest
    | some r =>
      match r.raised with
      | some e => some e
      | none => runLines cluster pf bodies rest

/-- Body of the `exit` command (console.py:142-147): `raise SystemExit()`. -/
def exitBody : Except Exc Unit := Except.error Exc.systemExit

/-- Exit status of the Python process when `run` is terminated by an uncaught
exception (interpreter semantics, external to the console): a bare
`SystemExit()` carries code `None`, which the interpreter maps to status 0;
any other uncaught exception prints a traceback and exits with status 1. -/
def exitCode : Exc → Nat
  | Exc.systemExit => 0
  | _ => 1

/-- Events performed by the body of the `pause` command on machines and the
clock; `m` identifies the machine handle acted on. -/
inductive PauseEvent (μ : Type) where
  | echoPausing (m : μ)
  | containerPause (m : μ)
  | sleepFor (t : Rat)
  | containerUnpause (m : μ)
  | pingMachine (m : μ) (timeout : Rat)
deriving DecidableEq, Repr

/-- The per-machine callback `f` of `pause` (console.py:269-275): echo, pause
the container, sleep for the requested time, unpause, ping with timeout 0. -/
def pauseSeq {μ : Type} (t : Rat) (m : μ) : List (PauseEvent μ) :=
  [PauseEvent.echoPausing m, PauseEvent.containerPause m, PauseEvent.sleepFor t,
   PauseEvent.containerUnpause m, PauseEvent.pingMachine m 0]

/-- Source method `Neo4jConsole.pause` (console.py:259-278): apply the callback to every
resolved machine via `_for_each_machine`, then raise
`BadParameter("Machine ... not found")` when the count is zero.  Returns the
event trace together with the raised exception, if any. -/
def pauseBody {μ : Type} (machines : Snapshot μ) (t : Rat) (machine : Option String) :
    List (PauseEvent μ) × Option Exc :=
  let r := _for_each_machine machines machine (fun m tr => tr ++ pauseSeq t m)
    ([] : List (PauseEvent μ))
  if r.1 = 0 then
    (r.2, some (Exc.badParameter ("Machine " ++ pyReprOpt machine ++ " not found")))
  else (r.2, none)

/-- Mutating operations of the external Service (§6 of the spec). -/
inductive ServiceCall where
  | add_core
  | add_replica
deriving DecidableEq, Repr

/-- The error message of `Neo4jClusterConsole.add` for an unrecognised mode
token (console.py:301-302; the trailing `.format(mode)` in the source is a
no-op because the literal has no placeholder). -/
def invalidModeMsg : String :=
  "Invalid value for \"MODE\", choose from \"core\" or \"read-replica\""

/-- Source method `Neo4jClusterConsole.add` (console.py:283-302): the fixed synonym table
from mode token to Service mutation.  Returns the Service calls performed
and the raised exception, if any. -/
def addBody (mode : String) : List ServiceCall × Option Exc :=
  if mode = "c" ∨ mode = "core" then ([ServiceCall.add_core], none)
  else if mode = "r" ∨ mode = "rr" ∨ mode = "replica" ∨ mode = "read-replica"
      ∨ mode = "read_replica" then ([ServiceCall.add_replica], none)
  else ([], some (Exc.badParameter invalidModeMsg))

/-- Python dict `.get(key, default)` on the configuration mapping of a spec. -/
def configGet (cfg : List (String × String)) (key dflt : String) : String :=
  match cfg.find? (fun kv => kv.1 == key) with
  | some kv => kv.2
  | none => dflt

/-- Python format `:<w`: pad on the right with spaces to a minimum width. -/
def padTo (w : Nat) (s : String) : String :=
  s ++ String.mk (List.replicate (w - s.length) ' ')

/-- The header line printed by `ls` (console.py:197-198). -/
def lsHeader : String :=
  "NAME        CONTAINER   MODE           BOLT PORT   HTTP PORT   DEBUG PORT"

/-- One table row of `ls` (console.py:202-209): fully-qualified name, container
short id, mode defaulting to `"SINGLE"`, and the three ports. -/
def lsRow (spec : MachineSpec) (machine : Machine) : String :=
  padTo 12 spec.fq_name ++ padTo 12 machine.short_id
    ++ padTo 15 (configGet spec.config "dbms.mode" "SINGLE")
    ++ padTo 12 (toString spec.bolt_port) ++ padTo 12 (toString spec.http_port)
    ++ toString spec.debug_port

/-- The row loop of `ls` (console.py:199-209): one row per snapshot entry,
skipping (with `continue`) every entry whose live machine is `None`.  (The
companion `spec is None` guard of the source is unrepresentable here
because the snapshot keys are `MachineSpec` values, per §6 of the spec.) -/
def lsRows : List (MachineSpec × Option Machine) → List String
  | [] => []
  | (_, none) :: rest => lsRows rest
  | (spec, some machine) :: rest => lsRow spec machine :: lsRows rest

/-- Source method `Neo4jConsole.ls` (console.py:177-209): the lines printed to stdout.  The
bound `refresh` flag is accepted but never read by the body. -/
def lsBody (machines : List (MachineSpec × Option Machine)) (refresh : Bool) :
    List String :=
  lsHeader :: lsRows machines

/-- The statements of the body of `Neo4jConsole.rt` (console.py:225-242), in
source order: fetch `service.routers()`, construct the `Connector` from the
profile of the first router, echo the refreshing message, call
`cx.refresh_routing_table(gdb)`, destructure `rt.runners()`, echo the three
endpoint lists, and finally `cx.close()`. -/
inductive RtStmt where
  | getRouters
  | mkConnector
  | echoRefreshing
  | refreshRoutingTable
  | runners
  | echoRouters
  | echoReaders
  | echoWriters
  | closeConnector
deriving DecidableEq, Repr

/-- The `rt` body as its straight-line statement sequence. -/
def rtProgram : List RtStmt :=
  [RtStmt.getRouters, RtStmt.mkConnector, RtStmt.echoRefreshing,
   RtStmt.refreshRoutingTable, RtStmt.runners, RtStmt.echoRouters,
   RtStmt.echoReaders, RtStmt.echoWriters, RtStmt.closeConnector]

/-- Python execution of a straight-line statement list with no exception
handler in scope (the `rt` body has none): statements complete in order
until one raises, which aborts the rest.  Returns the completed statements
and whether an exception propagated; `raises` models which collaborator
calls raise on this execution. -/
def execStmts (raises : RtStmt → Bool) : List RtStmt → List RtStmt × Bool
  | [] => ([], false)
  | s :: rest =>
    if raises s then ([], true)
    else
      let r := execStmts raises rest
      (s :: r.1, r.2)

theorem foldl_count_state {μ σ : Type} (l : List μ) (f : μ → σ → σ) :
    ∀ (n : Nat) (s : σ),
      l.foldl (fun acc m => (acc.1 + 1, f m acc.2)) (n, s)
        = (n + l.length, l.foldl (fun st m => f m st) s) := by
  induction l with
  | nil => intro n s; simp
  | cons a l ih =>
    intro n s
    have h1 : n + 1 + l.length = n + (l.length + 1) := by omega
    simp only [List.foldl_cons, List.length_cons, ih, h1]

theorem foldl_append_trace {μ β : Type} (g : μ → List β) (l : List μ) :
    ∀ acc : List β,
      l.foldl (fun tr m => tr ++ g m) acc = acc ++ l.flatMap g := by
  induction l with
  | nil => intro acc; simp
  | cons a l ih => intro acc; simp [ih]

theorem for_each_machine_eq {μ σ : Type} (machines : Snapshot μ)
    (name : Option String) (f : μ → σ → σ) (s0 : σ) :
    _for_each_machine machines name f s0
      = ((_iter_machines machines name).length,
         (_iter_machines machines name).foldl (fun st m => f m st) s0) := by
  unfold _for_each_machine
  simpa using foldl_count_state (_iter_machines machines name) f 0 s0

/-- C1: `_for_each_machine` returns the number of specs whose short or
fully-qualified name equals the defaulted token — `0` exactly when no spec
matches — and the action is applied once per matching machine, in the
iteration order of the snapshot (the machines yielded by `_iter_machines`). -/
theorem C1_apply_counts_matches {μ σ : Type} (machines : Snapshot μ)
    (name : Option String) (f : μ → σ → σ) (s0 : σ) :
    (_for_each_machine machines name f s0).1
        = (machines.filter (fun p =>
            decide (tokenDefault name = p.1.name ∨ tokenDefault name = p.1.fq_name))).length
      ∧ (_for_each_machine machines name f s0).2
        = (_iter_machines machines name).foldl (fun st m => f m st) s0
      ∧ _iter_machines machines name
        = (machines.filter (fun p =>
            decide (tokenDefault name = p.1.name ∨ tokenDefault name = p.1.fq_name))).map
            Prod.snd
      ∧ ((_for_each_machine machines name f s0).1 = 0 ↔
          ∀ p ∈ machines,
            ¬(tokenDefault name = p.1.name ∨ tokenDefault name = p.1.fq_name)) := by
  have hiter : _iter_machines machines name
      = (machines.filter (fun p =>
          decide (tokenDefault name = p.1.name ∨ tokenDefault name = p.1.fq_name))).map
          Prod.snd := rfl
  have heq := for_each_machine_eq machines name f s0
  refine ⟨?_, ?_, hiter, ?_⟩
  · rw [heq, hiter]; simp
  · rw [heq]
  · rw [heq, hiter]
    simp [List.length_eq_zero, List.filter_eq_nil_iff, not_or]

/-- C6: the event trace of the `pause` command is exactly the per-machine sequence
echo, container pause, sleep for the requested duration, container unpause,
liveness ping — once per matched machine, machines handled one after
another in resolution order — and it completes without error exactly when
at least one machine matched. -/
theorem C6_pause_order {μ : Type} (machines : Snapshot μ) (t : Rat)
    (machine : Option String) :
    (pauseBody machines t machine).1
        = (_iter_machines machines machine).flatMap (pauseSeq t)
      ∧ ((pauseBody machines t machine).2 = none ↔
          _iter_machines machines machine ≠ []) := by
  have hfe := for_each_machine_eq machines machine
    (fun m tr => tr ++ pauseSeq t m) ([] : List (PauseEvent μ))
  have htr : List.foldl (fun st m => st ++ pauseSeq t m) []
        (_iter_machines machines machine)
      = (_iter_machines machines machine).flatMap (pauseSeq t) := by
    simpa using foldl_append_trace (pauseSeq t) (_iter_machines machines machine) []
  constructor
  · by_cases h : (_iter_machines machines machine).length = 0 <;>
      simp [pauseBody, hfe, htr, h]
  · by_cases h : (_iter_machines machines machine).length = 0
    · have h' := List.length_eq_zero.mp h
      simp [pauseBody, hfe, htr, h, h']
    · have h' : _iter_machines machines machine ≠ [] := by
        intro hc
        rw [hc] at h
        simp at h
      simp [pauseBody, hfe, htr, h, h']

/-- C7: resolving the empty token yields exactly the machines resolved by the
literal token `"a"`, for every snapshot. -/
theorem C7_resolve_empty_default {μ : Type} (machines : Snapshot μ) :
    _iter_machines machines (some "") = _iter_machines machines (some "a") := by
  have h : tokenDefault (some "") = tokenDefault (some "a") := by decide
  unfold _iter_machines
  rw [h]

theorem execStmts_last_mem (x : RtStmt) :
    ∀ (l : List RtStmt) (raises : RtStmt → Bool), x ∉ l →
      (x ∈ (execStmts raises (l ++ [x])).1 ↔ ∀ s ∈ l ++ [x], raises s = false) := by
  intro l
  induction l with
  | nil =>
    intro raises _
    by_cases h : raises x = true
    · simp [execStmts, h]
    · simp only [Bool.not_eq_true] at h
      simp [execStmts, h]
  | cons a l ih =>
    intro raises hx
    have hxa : x ≠ a := by
      intro hc
      exact hx (by simp [hc])
    have hxl : x ∉ l := fun hc => hx (List.mem_cons_of_mem _ hc)
    by_cases h : raises a = true
    · rw [List.cons_append]
      simp only [execStmts, h, if_true, List.not_mem_nil, false_iff]
      intro hall
      exact absurd (hall a (by simp)) (by simp [h])
    · have hf : raises a = false := by simpa using h
      rw [List.cons_append]
      simp only [execStmts, hf, Bool.false_eq_true, if_false, List.mem_cons, hxa,
        false_or]
      rw [ih raises hxl]
      constructor
      · intro hall s hs
        rcases hs with rfl | hs'
        · exact hf
        · exact hall s hs'
      · intro hall s hs
        exact hall s (Or.inr hs)

/-- C2 counterexample: on the execution of `rt` where `refresh_routing_table`
raises, the exception propagates (there is no handler in the body) and
`cx.close()` is never executed; the connector is not closed on this path,
contradicting the claim. -/
theorem C2_cex_refresh_raise_leaks :
    (execStmts (fun s => s == RtStmt.refreshRoutingTable) rtProgram).2 = true
      ∧ RtStmt.closeConnector ∉
          (execStmts (fun s => s == RtStmt.refreshRoutingTable) rtProgram).1 := by
  decide

/-- C2 amended: the connector constructed by `rt` is closed exactly on the
executions where no statement of the body raises; whenever
`refresh_routing_table` raises, the exception propagates out of `rt` and
the connector is left unclosed (it leaks on every failure path). -/
theorem C2_amended_close_iff_no_raise (raises : RtStmt → Bool) :
    (RtStmt.closeConnector ∈ (execStmts raises rtProgram).1 ↔
        ∀ s ∈ rtProgram, raises s = false)
      ∧ (raises RtStmt.refreshRoutingTable = true →
          RtStmt.closeConnector ∉ (execStmts raises rtProgram).1) := by
  have hnotin : RtStmt.closeConnector ∉
      [RtStmt.getRouters, RtStmt.mkConnector, RtStmt.echoRefreshing,
       RtStmt.refreshRoutingTable, RtStmt.runners, RtStmt.echoRouters,
       RtStmt.echoReaders, RtStmt.echoWriters] := by decide
  have hsplit : rtProgram
      = [RtStmt.getRouters, RtStmt.mkConnector, RtStmt.echoRefreshing,
         RtStmt.refreshRoutingTable, RtStmt.runners, RtStmt.echoRouters,
         RtStmt.echoReaders, RtStmt.echoWriters] ++ [RtStmt.closeConnector] := rfl
  have hmain := execStmts_last_mem RtStmt.closeConnector
    [RtStmt.getRouters, RtStmt.mkConnector, RtStmt.echoRefreshing,
     RtStmt.refreshRoutingTable, RtStmt.runners, RtStmt.echoRouters,
     RtStmt.echoReaders, RtStmt.echoWriters] raises hnotin
  constructor
  · rw [hsplit]
    exact hmain
  · intro hr hmem
    rw [hsplit] at hmem
    have hall := hmain.mp hmem
    have := hall RtStmt.refreshRoutingTable (by simp)
    rw [this] at hr
    exact Bool.false_ne_true hr

theorem C2_amended_witness :
    RtStmt.closeConnector ∉
      (execStmts (fun s => decide (s = RtStmt.refreshRoutingTable)) rtProgram).1 :=
  (C2_amended_close_iff_no_raise
    (fun s => decide (s = RtStmt.refreshRoutingTable))).2 (by decide)

/-- C3 counterexample: the whitespace-only input line consisting of a single
space is empty after trimming, yet the loop body of `run` dispatches it:
`shlex_split` tokenizes it to zero tokens and `invoke` is called (whose
`args[0]` then raises `IndexError`) — it does not return to Prompting
without tokenizing or invoking. -/
theorem C3_cex_whitespace_dispatches :
    (∀ c ∈ (" ").data, c.isWhitespace)
      ∧ " " ≠ ""
      ∧ runStep false (fun _ => none) (fun _ _ => Except.ok ()) " "
          = some ⟨[], some Exc.indexError⟩ := by
  refine ⟨by decide, by decide, by decide⟩

/-- C3 amended: the loop transitions from Prompting to Dispatching exactly
when the input line is non-empty with no trimming applied — a line of
whitespace is dispatched (tokenized and passed to `invoke`); only the
entirely empty line returns to Prompting without dispatch. -/
theorem C3_amended_dispatch_iff_nonempty (cluster : Bool)
    (pf : String → Option Rat) (bodies : Cmd → Params → Except Exc Unit)
    (line : String) :
    (runStep cluster pf bodies line = none ↔ line = "")
      ∧ (line ≠ "" →
          runStep cluster pf bodies line
            = some (invoke cluster pf bodies (shlex_split line))) := by
  constructor
  · by_cases h : line = "" <;> simp [runStep, h]
  · intro h
    simp [runStep, h]

theorem C3_amended_witness :
    runStep false (fun _ => none) (fun _ _ => Except.ok ()) "ls"
      = some (invoke false (fun _ => none) (fun _ _ => Except.ok ())
          (shlex_split "ls")) :=
  (C3_amended_dispatch_iff_nonempty false (fun _ => none)
    (fun _ _ => Except.ok ()) "ls").2 (by decide)

/-- C8: the fixed synonym table of the `add` command — `c` and `core` perform
exactly one `add_core` call; `r`, `rr`, `replica`, `read-replica` and
`read_replica` perform exactly one `add_replica` call; every other mode
token raises the `BadParameter` whose message lists only `core` and
`read-replica` as valid values, with no Service mutation performed. -/
theorem C8_add_synonym_table (mode : String) :
    ((mode = "c" ∨ mode = "core") →
        addBody mode = ([ServiceCall.add_core], none))
      ∧ ((mode = "r" ∨ mode = "rr" ∨ mode = "replica" ∨ mode = "read-replica"
            ∨ mode = "read_replica") →
        addBody mode = ([ServiceCall.add_replica], none))
      ∧ ((¬(mode = "c" ∨ mode = "core")
            ∧ ¬(mode = "r" ∨ mode = "rr" ∨ mode = "replica" ∨ mode = "read-replica"
                ∨ mode = "read_replica")) →
        addBody mode = ([], some (Exc.badParameter invalidModeMsg)))
      ∧ invalidModeMsg
          = "Invalid value for \"MODE\", choose from \"core\" or \"read-replica\"" := by
  refine ⟨?_, ?_, ?_, rfl⟩
  · intro h
    unfold addBody
    rw [if_pos h]
  · rintro (rfl | rfl | rfl | rfl | rfl) <;> decide
  · rintro ⟨h1, h2⟩
    unfold addBody
    rw [if_neg h1, if_neg h2]

theorem C8_witness :
    addBody "bogus-mode" = ([], some (Exc.badParameter invalidModeMsg)) :=
  (C8_add_synonym_table "bogus-mode").2.2.1 (by decide)

theorem lsRows_eq (machines : List (MachineSpec × Option Machine)) :
    lsRows machines
      = (machines.filterMap (fun p => p.2.map (fun m => (p.1, m)))).map
          (fun q => lsRow q.1 q.2) := by
  induction machines with
  | nil => rfl
  | cons p rest ih =>
    rcases p with ⟨spec, m⟩
    cases m <;> simp [lsRows, ih]

theorem lsRows_length (machines : List (MachineSpec × Option Machine)) :
    (lsRows machines).length
      = (machines.filter (fun p => p.2.isSome)).length := by
  induction machines with
  | nil => rfl
  | cons p rest ih =>
    rcases p with ⟨spec, m⟩
    cases m <;> simp [lsRows, List.filter_cons, ih]

/-- C9: `ls` prints the header followed by exactly one row for each snapshot
entry whose live Machine is present, in snapshot order, silently skipping
entries whose Machine is absent; the mode column uses the configured
`dbms.mode` value when one exists and falls back to `"SINGLE"` exactly when
the configuration has no such entry. -/
theorem C9_ls_skips_absent (machines : List (MachineSpec × Option Machine))
    (refresh : Bool) :
    lsBody machines refresh
        = lsHeader ::
            (machines.filterMap (fun p => p.2.map (fun m => (p.1, m)))).map
              (fun q => lsRow q.1 q.2)
      ∧ (lsRows machines).length
          = (machines.filter (fun p => p.2.isSome)).length
      ∧ (∀ cfg : List (String × String),
          cfg.find? (fun kv => kv.1 == "dbms.mode") = none →
          configGet cfg "dbms.mode" "SINGLE" = "SINGLE")
      ∧ (∀ (cfg : List (String × String)) (kv : String × String),
          cfg.find? (fun kv => kv.1 == "dbms.mode") = some kv →
          configGet cfg "dbms.mode" "SINGLE" = kv.2) := by
  refine ⟨?_, lsRows_length machines, ?_, ?_⟩
  · unfold lsBody
    rw [lsRows_eq]
  · intro cfg h
    unfold configGet
    rw [h]
  · intro cfg kv h
    unfold configGet
    rw [h]

theorem C9_witness :
    configGet [] "dbms.mode" "SINGLE" = "SINGLE"
      ∧ configGet [("dbms.mode", "CORE")] "dbms.mode" "SINGLE" = "CORE" :=
  ⟨(C9_ls_skips_absent [] false).2.2.1 [] (by decide),
   (C9_ls_skips_absent [] false).2.2.2 [("dbms.mode", "CORE")]
     ("dbms.mode", "CORE") (by decide)⟩

theorem bindOptArg_error_click (a : List String) (e : Exc)
    (h : bindOptArg a = Except.error e) : e.isClickException = true := by
  match a with
  | [] => simp [bindOptArg] at h
  | [x] => simp [bindOptArg] at h
  | _ :: y :: _ =>
    simp only [bindOptArg, Except.error.injEq] at h
    rw [← h]
    rfl

theorem bindNoArg_error_click (a : List String) (e : Exc)
    (h : bindNoArg a = Except.error e) : e.isClickException = true := by
  match a with
  | [] => simp [bindNoArg] at h
  | x :: _ =>
    simp only [bindNoArg, Except.error.injEq] at h
    rw [← h]
    rfl

theorem bindReqArg_error_click (p : String) (a : List String) (e : Exc)
    (h : bindReqArg p a = Except.error e) : e.isClickException = true := by
  match a with
  | [] =>
    simp only [bindReqArg, Except.error.injEq] at h
    rw [← h]
    rfl
  | [x] => simp [bindReqArg] at h
  | _ :: y :: _ =>
    simp only [bindReqArg, Except.error.injEq] at h
    rw [← h]
    rfl

theorem bindLs_error_click (a : List String) :
    ∀ (r : Bool) (e : Exc), bindLs a r = Except.error e →
      e.isClickException = true := by
  induction a with
  | nil =>
    intro r e h
    simp [bindLs] at h
  | cons t rest ih =>
    intro r e h
    simp only [bindLs] at h
    split at h
    · exact ih true e h
    · split at h
      · rw [← (Except.error.injEq _ _).mp h]
        rfl
      · rw [← (Except.error.injEq _ _).mp h]
        rfl

theorem bindPause_error_click (pf : String → Option Rat) (a : List String)
    (e : Exc) (h : bindPause pf a = Except.error e) :
    e.isClickException = true := by
  match a with
  | [] =>
    simp only [bindPause, Except.error.injEq] at h
    rw [← h]
    rfl
  | t :: rest =>
    simp only [bindPause] at h
    match hpf : pf t with
    | none =>
      rw [hpf] at h
      simp only [Except.error.injEq] at h
      rw [← h]
      rfl
    | some v =>
      rw [hpf] at h
      match rest with
      | [] => simp at h
      | [m] => simp at h
      | _ :: y :: _ =>
        simp only [Except.error.injEq] at h
        rw [← h]
        rfl

theorem make_context_error_click (pf : String → Option Rat) (c : Cmd)
    (a : List String) (e : Exc) (h : make_context pf c a = Except.error e) :
    e.isClickException = true := by
  cases c
  case browser => exact bindOptArg_error_click a e h
  case ping => exact bindOptArg_error_click a e h
  case logs => exact bindOptArg_error_click a e h
  case rt => exact bindOptArg_error_click a e h
  case help => exact bindOptArg_error_click a e h
  case env => exact bindNoArg_error_click a e h
  case exit => exact bindNoArg_error_click a e h
  case ls => exact bindLs_error_click a false e h
  case pause => exact bindPause_error_click pf a e h
  case add => exact bindReqArg_error_click "MODE" a e h
  case rm => exact bindReqArg_error_click "MACHINE" a e h
  case reboot => exact bindReqArg_error_click "MACHINE" a e h

theorem invoke_click_error (cluster : Bool) (pf : String → Option Rat)
    (bodies : Cmd → Params → Except Exc Unit) (args : List String) (e : Exc)
    (h : invokeTry cluster pf bodies args = Except.error e)
    (hc : e.isClickException = true) :
    invoke cluster pf bodies args = ⟨[e.formatMessage], none⟩ := by
  cases e <;> simp [invoke, h, Exc.isClickException] at hc ⊢

theorem invoke_nonclick_error (cluster : Bool) (pf : String → Option Rat)
    (bodies : Cmd → Params → Except Exc Unit) (args : List String) (e : Exc)
    (h : invokeTry cluster pf bodies args = Except.error e)
    (hc : e.isClickException = false) (hx : e ≠ Exc.clickExit) :
    invoke cluster pf bodies args = ⟨[], some e⟩ := by
  cases e <;>
    simp [invoke, h, Exc.isClickException] at hc hx ⊢

/-- C4: every user error arising inside `invoke` — an unknown first token, a
click binding failure from `make_context`, or a `ClickException` (such as a
machine-not-found or invalid-mode `BadParameter`) raised by a command
body — is caught by the handler of `invoke`, printed as exactly one
`format_message` line on the error stream, and `invoke` returns without
propagating, so the read-eval loop continues; in particular an unregistered
first token prints exactly one no-such-command message. -/
theorem C4_user_errors_isolated (cluster : Bool) (pf : String → Option Rat)
    (bodies : Cmd → Params → Except Exc Unit) (args : List String) :
    (∀ e, invokeTry cluster pf bodies args = Except.error e →
        e.isClickException = true →
        invoke cluster pf bodies args = ⟨[e.formatMessage], none⟩)
      ∧ (∀ (c : Cmd) (a : List String) (e : Exc),
          make_context pf c a = Except.error e → e.isClickException = true)
      ∧ (∀ arg0 rest, args = arg0 :: rest →
          (∀ c ∈ commandsOf cluster, cmdName c ≠ arg0) →
          invoke cluster pf bodies args
            = ⟨["Invalid value: "
                ++ ("No such command \"" ++ arg0 ++ "\".")], none⟩)
      ∧ (∀ line rest, line ≠ "" →
          (invoke cluster pf bodies (shlex_split line)).raised = none →
          runLines cluster pf bodies (line :: rest)
            = runLines cluster pf bodies rest) := by
  refine ⟨?_, fun c a e h => make_context_error_click pf c a e h, ?_, ?_⟩
  · intro e h hc
    exact invoke_click_error cluster pf bodies args e h hc
  · intro arg0 rest hargs hnone
    subst hargs
    have hfind : (commandsOf cluster).find? (fun c => cmdName c == arg0) = none := by
      apply List.find?_eq_none.mpr
      intro c hc
      simp [hnone c hc]
    have hg : getitem cluster arg0
        = Except.error (Exc.badParameter ("No such command \"" ++ arg0 ++ "\".")) := by
      unfold getitem
      rw [hfind]
    have ht : invokeTry cluster pf bodies (arg0 :: rest)
        = Except.error (Exc.badParameter ("No such command \"" ++ arg0 ++ "\".")) := by
      simp [invokeTry, hg]
    exact invoke_click_error cluster pf bodies (arg0 :: rest) _ ht rfl
  · intro line rest h hnone
    simp [runLines, runStep, h, hnone]

theorem C4_witness :
    invoke false (fun _ => none) (fun _ _ => Except.ok ()) ["bogus"]
      = ⟨["Invalid value: " ++ ("No such command \"" ++ "bogus" ++ "\".")], none⟩ :=
  (C4_user_errors_isolated false (fun _ => none) (fun _ _ => Except.ok ())
    ["bogus"]).2.2.1 "bogus" [] rfl (by decide)

/-- C5: the bare `SystemExit` raised by the exit command is caught by neither
of the two handlers of `invoke`, escapes `invoke`, terminates the read-eval loop,
and makes the process exit with status 0; likewise every other non-click
exception raised by a command body propagates out of `invoke` and out of
the loop. -/
theorem C5_exit_terminates (cluster : Bool) (pf : String → Option Rat)
    (bodies : Cmd → Params → Except Exc Unit)
    (hexit : bodies Cmd.exit Params.unit0 = exitBody) :
    invoke cluster pf bodies ["exit"] = ⟨[], some Exc.systemExit⟩
      ∧ (∀ rest, runLines cluster pf bodies ("exit" :: rest)
          = some Exc.systemExit)
      ∧ exitCode Exc.systemExit = 0
      ∧ (∀ args e, invokeTry cluster pf bodies args = Except.error e →
          e.isClickException = false → e ≠ Exc.clickExit →
          invoke cluster pf bodies args = ⟨[], some e⟩)
      ∧ (∀ line rest e, line ≠ "" →
          (invoke cluster pf bodies (shlex_split line)).raised = some e →
          runLines cluster pf bodies (line :: rest) = some e) := by
  have hlookup : getitem cluster "exit" = Except.ok Cmd.exit := by
    cases cluster <;> rfl
  have htry : invokeTry cluster pf bodies ["exit"]
      = Except.error Exc.systemExit := by
    simp [invokeTry, hlookup, make_context, bindNoArg, hexit, exitBody]
  have hinv : invoke cluster pf bodies ["exit"] = ⟨[], some Exc.systemExit⟩ :=
    invoke_nonclick_error cluster pf bodies ["exit"] Exc.systemExit htry rfl
      (by intro hc; cases hc)
  have hs : shlex_split "exit" = ["exit"] := by decide
  refine ⟨hinv, ?_, rfl, ?_, ?_⟩
  · intro rest
    simp [runLines, runStep, hs, hinv]
  · intro args e h hc hx
    exact invoke_nonclick_error cluster pf bodies args e h hc hx
  · intro line rest e h hraised
    simp [runLines, runStep, h, hraised]

theorem C5_witness :
    invoke false (fun _ => none)
        (fun c _ => if c = Cmd.exit then exitBody else Except.ok ()) ["exit"]
      = ⟨[], some Exc.systemExit⟩ :=
  (C5_exit_terminates false (fun _ => none)
    (fun c _ => if c = Cmd.exit then exitBody else Except.ok ()) rfl).1

/-- C10: `invoke` applied to an empty token sequence raises `IndexError` from
`args[0]`; `IndexError` is neither `click.exceptions.Exit` nor a
`ClickException`, so neither handler catches it and it escapes `invoke` —
hence the read-eval loop, which dispatches a whitespace-only line after
tokenizing it to zero tokens, crashes the session instead of printing a
user-error message. -/
theorem C10_empty_invoke_crashes (cluster : Bool) (pf : String → Option Rat)
    (bodies : Cmd → Params → Except Exc Unit) :
    invokeTry cluster pf bodies [] = Except.error Exc.indexError
      ∧ Exc.indexError.isClickException = false
      ∧ Exc.indexError ≠ Exc.clickExit
      ∧ invoke cluster pf bodies [] = ⟨[], some Exc.indexError⟩
      ∧ shlex_split " " = []
      ∧ (∀ rest, runLines cluster pf bodies (" " :: rest)
          = some Exc.indexError)
      ∧ exitCode Exc.indexError ≠ 0 := by
  have hinv : invoke cluster pf bodies [] = ⟨[], some Exc.indexError⟩ := rfl
  have hs : shlex_split " " = [] := by decide
  refine ⟨rfl, rfl, ?_, hinv, hs, ?_, ?_⟩
  · intro hc
    cases hc
  · intro rest
    simp [runLines, runStep, hs, hinv]
  · decide

end Grolt
